import Mathlib

/-!
Verification of the ICA feature-extraction pipeline
(`ica_megnet_feature_pipeline.py`) against its natural-language
specification.

The script loads a multichannel MEG recording, preprocesses it in place
(channel selection, band-pass filter, notch filter, resampling), fits an
ICA decomposition with an explicit `random_state`, and then loops over the
components, slicing out per-component temporal rows and spatial columns
for visualization.

The embedding below models:
* matrices as lists of rows of rationals (the script's float arrays,
  modelled over `ℚ` so that every definition is executable and decidable);
* the per-component extraction loop (script lines 78-104) as a pure
  function plus a state-threading fold for the visualization side;
* the preprocessing stage as a state update on the script's single `raw`
  binding (the library calls `raw.filter`, `raw.notch_filter`,
  `raw.resample` operate in place: their results are discarded and the
  same `raw` is used afterwards);
* the spec-level `preprocess` contract and the decomposition engine `fit`,
  whose bodies live in the external numeric library and are therefore
  modelled from the spec where indicated.
-/

/-! ## Matrices and component features (script lines 69-81) -/

/-- A numeric matrix as a list of rows, mirroring the script's 2-D arrays
(`sources` has shape (n_components, time); `mixing` has shape
(n_channels, n_components)). -/
abbrev Matrix' : Type := List (List ℚ)

/-- Row `i` of a matrix: the script's `sources[ic]` slice (line 80).
Faithful for in-range indices; an out-of-range `sources[ic]` raises
`IndexError` in the program, a path this totalization collapses to the
empty row, so every theorem below keeps its row accesses within bounds
and none relies on the default. -/
def Matrix'.row (m : Matrix') (i : ℕ) : List ℚ := m.getD i []

/-- Column `i` of a matrix: the script's `mixing[:, ic]` slice (line 81),
one entry per row.  Faithful for in-range indices; an out-of-range
`mixing[:, ic]` raises `IndexError` in the program, a path this
totalization collapses to a default `0` entry, so every theorem below
keeps its column accesses within bounds and none relies on the
default. -/
def Matrix'.col (m : Matrix') (i : ℕ) : List ℚ :=
  m.map (fun r => r.getD i 0)

/-- The spec's `ComponentFeature`: index, per-component temporal trace and
spatial weight vector. -/
structure ComponentFeature where
  index : ℕ
  temporal : List ℚ
  spatial : List ℚ
deriving DecidableEq, Repr

/-- The script's component count `N_ICA = 30` (line 29). -/
def N_ICA : ℕ := 30

/-- The extraction step of the script's loop (lines 78-81):
for `ic in range(n)`, take `temporal = sources[ic]` and
`spatial = mixing[:, ic]`.  The loop performs no shape check. -/
def extractFeatures (n : ℕ) (sources mixing : Matrix') : List ComponentFeature :=
  (List.range n).map (fun ic => ⟨ic, sources.row ic, mixing.col ic⟩)

/-! ## C1: the same index selects both halves of each feature pair -/

/-- C1: for every component index `i < n`, the extraction step produces at
position `i` the feature pair whose temporal part is row `i` of `sources`
and whose spatial part is column `i` of `mixing`: the same index selects
both halves. -/
theorem extract_pairs_row_and_col_at_same_index
    (n i : ℕ) (sources mixing : Matrix') (h : i < n) :
    (extractFeatures n sources mixing).getD i ⟨0, [], []⟩ =
      ⟨i, sources.row i, mixing.col i⟩ := by
  have hlen : i < (extractFeatures n sources mixing).length := by
    simpa [extractFeatures] using h
  rw [List.getD_eq_getElem _ _ hlen]
  simp [extractFeatures]

/-- Witness for C1 at a concrete input. -/
theorem extract_pairs_row_and_col_at_same_index_witness :
    (1 : ℕ) < 2 ∧
    (extractFeatures 2 [[1, 2], [3, 4]] [[5, 6], [7, 8]]).getD 1 ⟨0, [], []⟩ =
      ⟨1, Matrix'.row [[1, 2], [3, 4]] 1, Matrix'.col [[5, 6], [7, 8]] 1⟩ :=
  ⟨by decide,
   extract_pairs_row_and_col_at_same_index 2 1 [[1, 2], [3, 4]] [[5, 6], [7, 8]]
     (by decide)⟩

/-! ## C6: shape invariants of extraction -/

/-- C6: for a valid (model, sources) pair — `sources` an
`n_components × n_samples` matrix and `mixing` an
`n_channels × n_components` matrix — extraction returns exactly
`n_components` features, every temporal part has length `n_samples` and
every spatial part has length `n_channels`. -/
theorem extract_shape_invariants
    (nComponents nSamples nChannels : ℕ) (sources mixing : Matrix')
    (hrows : sources.length = nComponents)
    (hsamp : ∀ r ∈ sources, r.length = nSamples)
    (hch : mixing.length = nChannels) :
    (extractFeatures nComponents sources mixing).length = nComponents ∧
    ∀ f ∈ extractFeatures nComponents sources mixing,
      f.temporal.length = nSamples ∧ f.spatial.length = nChannels := by
  constructor
  · simp [extractFeatures]
  · intro f hf
    simp only [extractFeatures, List.mem_map, List.mem_range] at hf
    obtain ⟨ic, hic, rfl⟩ := hf
    constructor
    · have hlt : ic < sources.length := by omega
      have : sources.getD ic [] = sources.get ⟨ic, hlt⟩ := by
        rw [List.getD_eq_getElem _ _ hlt]; simp
      simp only [Matrix'.row, this]
      exact hsamp _ (List.get_mem sources ic hlt)
    · simp [Matrix'.col, hch]

/-- Witness for C6 at a concrete input: 2 components, 3 samples,
4 channels. -/
theorem extract_shape_invariants_witness :
    ([[1, 2, 3], [4, 5, 6]] : Matrix').length = 2 ∧
    ((extractFeatures 2 [[1, 2, 3], [4, 5, 6]]
        [[1, 2], [3, 4], [5, 6], [7, 8]]).length = 2 ∧
      ∀ f ∈ extractFeatures 2 [[1, 2, 3], [4, 5, 6]]
          [[1, 2], [3, 4], [5, 6], [7, 8]],
        f.temporal.length = 3 ∧ f.spatial.length = 4) :=
  ⟨rfl,
   extract_shape_invariants 2 3 4 [[1, 2, 3], [4, 5, 6]]
     [[1, 2], [3, 4], [5, 6], [7, 8]]
     rfl (by decide) rfl⟩

/-! ## C7: the loop has no shape check (corrected) -/

/-- Counterexample to C7: a `sources` matrix with 31 rows differs from the
script's `N_ICA = 30` components, yet extraction still succeeds and
produces the full 30 features — the loop never fails with `ShapeMismatch`,
refuting "succeeds only when both counts equal n_components". -/
theorem extract_no_shape_check_counterexample :
    (List.replicate 31 ([0] : List ℚ) : Matrix').length ≠ N_ICA ∧
    (extractFeatures N_ICA (List.replicate 31 ([0] : List ℚ))
        (List.replicate 4 (List.replicate 30 (0 : ℚ)))).length = N_ICA := by
  constructor
  · decide
  · simp [extractFeatures]

/-- C7 (amended): the extraction loop performs no shape check: whenever
`sources` has at least `n` rows and every row of `mixing` has at least
`n` entries — in particular when either count strictly exceeds the
component count, a mismatch the original claim says must fail — it
succeeds with no `ShapeMismatch`, producing exactly `n` features, the
extra rows and columns silently ignored; every per-component access it
performs stays within bounds. -/
theorem extract_no_shape_check_in_range
    (n : ℕ) (sources mixing : Matrix')
    (hrows : n ≤ sources.length)
    (hcols : ∀ r ∈ mixing, n ≤ r.length) :
    (extractFeatures n sources mixing).length = n ∧
    ∀ i, i < n → i < sources.length ∧ ∀ r ∈ mixing, i < r.length :=
  ⟨by simp [extractFeatures],
   fun i hi =>
     ⟨lt_of_lt_of_le hi hrows,
      fun r hr => lt_of_lt_of_le hi (hcols r hr)⟩⟩

/-- Witness for C7 (amended) at the mismatched input of the
counterexample: 31 source rows and 30-column mixing rows against
`N_ICA = 30`. -/
theorem extract_no_shape_check_in_range_witness :
    N_ICA ≤ (List.replicate 31 ([0] : List ℚ) : Matrix').length ∧
    (∀ r ∈ (List.replicate 4 (List.replicate 30 (0 : ℚ)) : Matrix'),
      N_ICA ≤ r.length) ∧
    ((extractFeatures N_ICA (List.replicate 31 ([0] : List ℚ))
        (List.replicate 4 (List.replicate 30 (0 : ℚ)))).length = N_ICA ∧
      ∀ i, i < N_ICA →
        i < (List.replicate 31 ([0] : List ℚ) : Matrix').length ∧
        ∀ r ∈ (List.replicate 4 (List.replicate 30 (0 : ℚ)) : Matrix'),
          i < r.length) :=
  ⟨by decide, by decide,
   extract_no_shape_check_in_range N_ICA (List.replicate 31 ([0] : List ℚ))
     (List.replicate 4 (List.replicate 30 (0 : ℚ)))
     (by decide) (by decide)⟩

/-! ## Multichannel signals and the preprocessing stage
(script lines 38-52) -/

/-- Channel kinds distinguished by the script's `pick_types` call
(line 41): MEG channels are kept, EEG/EOG/ECG are dropped. -/
inductive ChanKind where
  | meg
  | eeg
  | eog
  | ecg
deriving DecidableEq, Repr

/-- One channel of a multichannel signal: its kind and its samples. -/
structure Channel where
  kind : ChanKind
  samples : List ℚ
deriving DecidableEq, Repr

/-- The spec's `MultichannelSignal`: channels plus sampling rate (Hz).
The channel layout metadata is used only by the export interface and is
omitted. -/
structure Signal where
  channels : List Channel
  sfreq : ℚ
deriving DecidableEq, Repr

/-- Number of channels of a signal. -/
def Signal.nChannels (s : Signal) : ℕ := s.channels.length

/-- Number of samples of a signal (the length of its first channel; the
spec's invariant makes all channels equal-length). -/
def Signal.nSamples (s : Signal) : ℕ :=
  match s.channels with
  | [] => 0
  | c :: _ => c.samples.length

/-- The script's `raw.pick_types(meg=True, eeg=False, eog=False,
ecg=False)` (line 41): keep only MEG channels. -/
def pickMegChannels (s : Signal) : Signal :=
  { s with channels := s.channels.filter (fun c => c.kind = ChanKind.meg) }

/-- Modelled from the spec: the band-pass filter of §4.1 (`raw.filter` on
line 48).  Its numeric kernel lives in the external library and is not in
the repository; the spec constrains only its signal-level frame — channel
count, sample count and sampling rate are preserved.  It is modelled as
that frame-preserving transform, carrying sample values through unchanged,
since no claim refers to the filtered values themselves. -/
def bandFilterSignal (lowCut highCut : ℚ) (s : Signal) : Signal :=
  let _ := lowCut
  let _ := highCut
  s

/-- Modelled from the spec: the notch filter of §4.1 (`raw.notch_filter`
on line 49), line-noise suppression at `lineFreq` Hz.  As with the
band-pass filter, the numeric kernel is external; it preserves channel
count, sample count and sampling rate and is modelled as that
frame-preserving transform. -/
def notchFilterSignal (lineFreq : ℚ) (s : Signal) : Signal :=
  let _ := lineFreq
  s

/-- Decimation of one channel's samples from rate `origRate` to rate
`target`: the resampled sequence has `⌊len · target / origRate⌋` samples,
sample `i` taken at source position `⌊i · origRate / target⌋`. -/
def decimate (xs : List ℚ) (origRate target : ℚ) : List ℚ :=
  let newLen : ℕ := (⌊(xs.length : ℚ) * target / origRate⌋).toNat
  (List.range newLen).map (fun i => xs.getD (⌊(i : ℚ) * origRate / target⌋).toNat 0)

/-- Modelled from the spec: resampling to `target` Hz (`raw.resample(200)`
on line 52), decimation with anti-aliasing.  The anti-aliasing kernel is
external; the signal-level effect is that the sampling rate becomes
`target` and the sample count scales by `target / sfreq`. -/
def resampleSignal (target : ℚ) (s : Signal) : Signal :=
  { channels := s.channels.map (fun c => { c with samples := decimate c.samples s.sfreq target }),
    sfreq := target }

/-- The script's filter cutoffs `LOW_FREQ = 1.0`, `HIGH_FREQ = 40.0`
(lines 30-31). -/
def LOW_FREQ : ℚ := 1

/-- The script's upper cutoff (line 31). -/
def HIGH_FREQ : ℚ := 40

/-- The preprocessing stage exactly as the script performs it
(lines 41-52): channel selection, band-pass filter at `[1, 40]` Hz, notch
filter at 50 Hz, resample to 200 Hz — applied unconditionally, with no
validation. -/
def preprocessStage (raw : Signal) : Signal :=
  resampleSignal 200
    (notchFilterSignal 50
      (bandFilterSignal LOW_FREQ HIGH_FREQ
        (pickMegChannels raw)))

/-- The script's storage relevant to preprocessing: the single module
variable `raw`.  The library calls on lines 41-52 operate in place (their
results are discarded and the same `raw` is used by the subsequent ICA
fit), so the stage is a state update overwriting `raw`. -/
structure ScriptState where
  raw : Signal
deriving DecidableEq, Repr

/-- Running the preprocessing stage on the script state: `raw` is
overwritten with the preprocessed signal; no other binding retains the
original. -/
def runPreprocessing (st : ScriptState) : ScriptState :=
  { st with raw := preprocessStage st.raw }

/-- A concrete input: two MEG channels of 10 samples at 1000 Hz. -/
def demoState : ScriptState :=
  ⟨⟨[⟨ChanKind.meg, [1, 2, 3, 4, 5, 6, 7, 8, 9, 10]⟩,
     ⟨ChanKind.meg, [0, 1, 0, 1, 0, 1, 0, 1, 0, 1]⟩], 1000⟩⟩

/-! ## C2: the preprocessing stage mutates its input (corrected) -/

/-- Counterexample to C2: on a 1000 Hz input the preprocessing stage does
mutate the script's signal — afterwards the one `raw` binding holds a
signal whose sampling rate is 200 and whose sample count is 2, not the
original 1000 Hz and 10 samples; no unchanged original remains. -/
theorem preprocess_mutates_counterexample :
    ¬ ((runPreprocessing demoState).raw.sfreq = demoState.raw.sfreq ∧
       (runPreprocessing demoState).raw.nSamples = demoState.raw.nSamples) := by
  decide

/-- C2 (amended): the preprocessing stage updates the script's signal in
place: afterwards the single `raw` binding holds the preprocessed signal,
whose sampling rate is the resample target 200 Hz; whenever the input rate
differs from 200 the original sampling rate is not preserved anywhere. -/
theorem preprocess_updates_in_place (st : ScriptState)
    (h : st.raw.sfreq ≠ 200) :
    (runPreprocessing st).raw.sfreq = 200 ∧
    (runPreprocessing st).raw.sfreq ≠ st.raw.sfreq := by
  refine ⟨rfl, ?_⟩
  simpa [runPreprocessing, preprocessStage, resampleSignal] using h.symm

/-- Witness for C2 (amended) at the concrete 1000 Hz input. -/
theorem preprocess_updates_in_place_witness :
    demoState.raw.sfreq ≠ 200 ∧
    ((runPreprocessing demoState).raw.sfreq = 200 ∧
     (runPreprocessing demoState).raw.sfreq ≠ demoState.raw.sfreq) :=
  ⟨by decide, preprocess_updates_in_place demoState (by decide)⟩

/-! ## The spec-level preprocess contract (§4.1) -/

/-- The preprocessing error taxonomy of spec §7. -/
inductive PreprocessError where
  | InvalidChannelSet
  | InvalidFilterRange
  | InvalidResampleRate
deriving DecidableEq, Repr

/-- Modelled from the spec: the Preprocessor contract
`preprocess(signal, low_cut, high_cut, line_freq, target_rate)` of §4.1.
The repository's script delegates the preprocessing bodies to an external
library with fixed parameters, so the contract's validation logic is not
under `src/`; it is modelled from the spec's words: select sensor-type
channels (`InvalidChannelSet` if none remain); band-pass with cutoffs
`[low_cut, high_cut]` (`InvalidFilterRange` if `low_cut ≥ high_cut`,
either non-positive, or `high_cut` above the Nyquist frequency
`sfreq / 2`); notch at `line_freq`; resample to `target_rate` when
`target_rate < sfreq` (`InvalidResampleRate` if `target_rate ≤ 0` or
`target_rate > sfreq`). -/
def preprocess (s : Signal) (lowCut highCut lineFreq targetRate : ℚ) :
    Except PreprocessError Signal :=
  let picked := pickMegChannels s
  if picked.channels.length = 0 then
    .error .InvalidChannelSet
  else if lowCut ≥ highCut ∨ lowCut ≤ 0 ∨ highCut ≤ 0 ∨ highCut > s.sfreq / 2 then
    .error .InvalidFilterRange
  else if targetRate ≤ 0 ∨ targetRate > s.sfreq then
    .error .InvalidResampleRate
  else
    let filtered := notchFilterSignal lineFreq (bandFilterSignal lowCut highCut picked)
    .ok (if targetRate < s.sfreq then resampleSignal targetRate filtered else filtered)

/-! ## C3: resampling happens only when `target_rate < sampling_rate`;
otherwise `InvalidResampleRate` -/

/-- C3: with the earlier validations passing (a nonempty sensor channel
set and a valid filter range), preprocessing fails with
`InvalidResampleRate` — producing no signal — whenever `target_rate ≤ 0`
or `target_rate > sampling_rate`; it resamples to `target_rate` Hz when
`target_rate < sampling_rate`; and at `target_rate = sampling_rate` it
succeeds without resampling, keeping the input rate. -/
theorem preprocess_resample_validation
    (s : Signal) (lowCut highCut lineFreq targetRate : ℚ)
    (hpick : (pickMegChannels s).channels.length ≠ 0)
    (hfilt : ¬ (lowCut ≥ highCut ∨ lowCut ≤ 0 ∨ highCut ≤ 0 ∨ highCut > s.sfreq / 2)) :
    ((targetRate ≤ 0 ∨ targetRate > s.sfreq) →
        preprocess s lowCut highCut lineFreq targetRate =
          .error .InvalidResampleRate) ∧
    (0 < targetRate → targetRate < s.sfreq →
        ∃ out, preprocess s lowCut highCut lineFreq targetRate = .ok out ∧
          out.sfreq = targetRate) ∧
    (targetRate = s.sfreq →
        ∃ out, preprocess s lowCut highCut lineFreq targetRate = .ok out ∧
          out.sfreq = s.sfreq) := by
  refine ⟨?_, ?_, ?_⟩
  · intro hbad
    simp [preprocess, hpick, hfilt, hbad]
  · intro hpos hlt
    have hgood : ¬ (targetRate ≤ 0 ∨ targetRate > s.sfreq) := by
      push_neg
      exact ⟨hpos, le_of_lt hlt⟩
    exact ⟨resampleSignal targetRate
        (notchFilterSignal lineFreq
          (bandFilterSignal lowCut highCut (pickMegChannels s))),
      by simp [preprocess, hpick, hfilt, hgood, hlt],
      rfl⟩
  · intro heq
    have hleft : ¬ (targetRate ≤ 0) := by
      push_neg at hfilt ⊢
      obtain ⟨h1, h2, h3, h4⟩ := hfilt
      rw [heq]
      nlinarith
    have hgood : ¬ (targetRate ≤ 0 ∨ targetRate > s.sfreq) := by
      push_neg at hleft ⊢
      exact ⟨hleft, le_of_eq heq⟩
    have hnlt : ¬ (targetRate < s.sfreq) := by
      rw [heq]
      exact lt_irrefl _
    exact ⟨notchFilterSignal lineFreq
        (bandFilterSignal lowCut highCut (pickMegChannels s)),
      by simp [preprocess, hpick, hfilt, hgood, hnlt],
      rfl⟩

/-- Witness for C3 at the script's own parameters (cutoffs 1 and 40 Hz,
notch 50 Hz, resample target 200 Hz) on the concrete 1000 Hz signal. -/
theorem preprocess_resample_validation_witness :
    (pickMegChannels demoState.raw).channels.length ≠ 0 ∧
    ¬ ((1 : ℚ) ≥ 40 ∨ (1 : ℚ) ≤ 0 ∨ (40 : ℚ) ≤ 0 ∨
        (40 : ℚ) > demoState.raw.sfreq / 2) ∧
    ((((200 : ℚ) ≤ 0 ∨ (200 : ℚ) > demoState.raw.sfreq) →
        preprocess demoState.raw 1 40 50 200 = .error .InvalidResampleRate) ∧
      ((0 : ℚ) < 200 → (200 : ℚ) < demoState.raw.sfreq →
        ∃ out, preprocess demoState.raw 1 40 50 200 = .ok out ∧
          out.sfreq = 200) ∧
      ((200 : ℚ) = demoState.raw.sfreq →
        ∃ out, preprocess demoState.raw 1 40 50 200 = .ok out ∧
          out.sfreq = demoState.raw.sfreq)) :=
  ⟨by decide, by norm_num [demoState],
   preprocess_resample_validation demoState.raw 1 40 50 200
     (by decide) (by norm_num [demoState])⟩

/-! ## C4: band-pass validation, `InvalidFilterRange` -/

/-- C4: with a nonempty sensor channel set, preprocessing fails with
`InvalidFilterRange` whenever `low_cut ≥ high_cut`, either cutoff is
non-positive, or `high_cut` exceeds the Nyquist frequency `sfreq / 2`; in
particular `low_cut = 50, high_cut = 10` always yields
`InvalidFilterRange`. -/
theorem preprocess_filter_validation
    (s : Signal) (lowCut highCut lineFreq targetRate : ℚ)
    (hpick : (pickMegChannels s).channels.length ≠ 0) :
    ((lowCut ≥ highCut ∨ lowCut ≤ 0 ∨ highCut ≤ 0 ∨ highCut > s.sfreq / 2) →
        preprocess s lowCut highCut lineFreq targetRate =
          .error .InvalidFilterRange) ∧
    preprocess s 50 10 lineFreq targetRate = .error .InvalidFilterRange := by
  constructor
  · intro hbad
    simp [preprocess, hpick, hbad]
  · have hbad : (50 : ℚ) ≥ 10 ∨ (50 : ℚ) ≤ 0 ∨ (10 : ℚ) ≤ 0 ∨
        (10 : ℚ) > s.sfreq / 2 := Or.inl (by norm_num)
    simp [preprocess, hpick, hbad]

/-- Witness for C4 on the concrete 1000 Hz two-channel signal. -/
theorem preprocess_filter_validation_witness :
    (pickMegChannels demoState.raw).channels.length ≠ 0 ∧
    ((((50 : ℚ) ≥ 10 ∨ (50 : ℚ) ≤ 0 ∨ (10 : ℚ) ≤ 0 ∨
          (10 : ℚ) > demoState.raw.sfreq / 2) →
        preprocess demoState.raw 50 10 50 200 = .error .InvalidFilterRange) ∧
      preprocess demoState.raw 50 10 50 200 = .error .InvalidFilterRange) :=
  ⟨by decide,
   preprocess_filter_validation demoState.raw 50 10 50 200 (by decide)⟩

/-! ## The decomposition engine (spec §4.2, script lines 59-66) -/

/-- The spec's `DecompositionModel` (§3): fitted ICA state. -/
structure DecompositionModel where
  nComponents : ℕ
  mixingMatrix : Matrix'
  unmixingMatrix : Matrix'
  meanVector : List ℚ
  converged : Bool
  iterationsUsed : ℕ
  randomSeed : ℕ
deriving DecidableEq, Repr

/-- Parameters of the fit (spec §4.2): the script passes
`n_components = 30`, `random_state = 97`, `max_iter = "auto"` (resolved by
the library to an iteration bound) and the library's default tolerance. -/
structure FitParams where
  nComponents : ℕ
  seed : Option ℕ
  maxIterations : ℕ
  tolerance : ℚ
deriving DecidableEq, Repr

/-- The script's `random_state=97` (line 62): an explicit seed, not
ambient randomness. -/
def scriptRandomState : Option ℕ := some 97

/-- Mean of a list of rationals. -/
def listMean (xs : List ℚ) : ℚ := xs.sum / (xs.length : ℚ)

/-- Per-channel means, the spec's `mean_vector` (§4.2 step 1). -/
def rowMeans (m : Matrix') : List ℚ := m.map listMean

/-- Centering (spec §4.2 step 1): subtract each channel's mean. -/
def centerRows (m : Matrix') : Matrix' :=
  m.map (fun r => r.map (fun x => x - listMean r))

/-- A deterministic linear congruential generator: the explicit seeded
pseudo-random generator the spec requires (§4.2 step 3, §9). -/
def lcg (s : ℕ) : ℕ := (1103515245 * s + 12345) % 2147483648

/-- The `k`-th value of the seeded generator stream. -/
def lcgNth (seed : ℕ) : ℕ → ℕ
  | 0 => lcg seed
  | k + 1 => lcg (lcgNth seed k)

/-- Modelled from the spec: the deterministic pseudo-random initial
rotation matrix seeded by `seed` (§4.2 step 3) — an `nc × nc` matrix with
entries drawn from the seeded generator, scaled into `[-1, 1]`. -/
def initRotation (seed nc : ℕ) : Matrix' :=
  (List.range nc).map (fun i =>
    (List.range nc).map (fun j =>
      ((lcgNth seed (i * nc + j) % 2001 : ℕ) : ℚ) / 1000 - 1))

/-- Transpose of a matrix. -/
def Matrix'.transpose (m : Matrix') : Matrix' :=
  (List.range (m.headD []).length).map (fun j => m.col j)

/-- Maximum absolute value of a list. -/
def maxAbs (xs : List ℚ) : ℚ := xs.foldl (fun a x => max a |x|) 0

/-- Change of one rotation row up to sign (spec §4.2 step 3): the smaller
of the element-wise distances to the new row and to its negation. -/
def rowChange (r r' : List ℚ) : ℚ :=
  min (maxAbs (List.zipWith (fun a b => a - b) r r'))
    (maxAbs (List.zipWith (fun a b => a + b) r r'))

/-- Maximum absolute change in any row, up to sign (the loop's
convergence measure, spec §4.2 step 3). -/
def matChange (w w' : Matrix') : ℚ :=
  (List.zipWith rowChange w w').foldl max 0

/-- Modelled from the spec: the iterative fixed-point rotation loop
(§4.2 step 3) — repeatedly apply the update `step`, stopping when the
maximum per-row change up to sign falls within `tolerance` or the
iteration budget is exhausted.  Returns the final rotation, whether the
tolerance was met, and the number of iterations used. -/
def fixedPointLoop (step : Matrix' → Matrix') (tol : ℚ) :
    ℕ → Matrix' → Matrix' × Bool × ℕ
  | 0, w => (w, false, 0)
  | n + 1, w =>
    if matChange (step w) w ≤ tol then (step w, true, 1)
    else
      ((fixedPointLoop step tol n (step w)).1,
       (fixedPointLoop step tol n (step w)).2.1,
       (fixedPointLoop step tol n (step w)).2.2 + 1)

/-- The spec's convergence condition in its own words (§4.2 step 4):
"tolerance was met before exhausting iterations" — stated as a direct
recursion, independently of how `fixedPointLoop` threads its state. -/
def toleranceMetWithin (step : Matrix' → Matrix') (tol : ℚ) :
    ℕ → Matrix' → Bool
  | 0, _ => false
  | n + 1, w =>
    if matChange (step w) w ≤ tol then true
    else toleranceMetWithin step tol n (step w)

/-- Modelled from the spec: the decomposition engine contract
`fit(signal, n_components, seed, max_iterations, tolerance)` (§4.2).  The
script delegates the numeric bodies to the external library
(`mne.preprocessing.ICA(...).fit`), so they are not under `src/`; the
engine is modelled from the spec's algorithm: center, start from a
deterministic seeded rotation and iterate the fixed-point update until
tolerance or exhaustion.  The nonlinearity-based update with symmetric
re-orthonormalization is itself external numeric code and is taken as the
parameter `mkStep` (a pure function of the centered data), so every
theorem below holds for each choice of update kernel.  The library
semantics of `random_state` is explicit: a supplied seed is used as given,
and only an absent seed (`none`) falls back to the ambient global
generator state `ambient`. -/
def fit (mkStep : Matrix' → Matrix' → Matrix') (signal : Matrix')
    (p : FitParams) (ambient : ℕ) : DecompositionModel :=
  { nComponents := p.nComponents
    unmixingMatrix :=
      (fixedPointLoop (mkStep (centerRows signal)) p.tolerance p.maxIterations
        (initRotation (p.seed.getD ambient) p.nComponents)).1
    mixingMatrix :=
      Matrix'.transpose
        ((fixedPointLoop (mkStep (centerRows signal)) p.tolerance p.maxIterations
          (initRotation (p.seed.getD ambient) p.nComponents)).1)
    meanVector := rowMeans signal
    converged :=
      (fixedPointLoop (mkStep (centerRows signal)) p.tolerance p.maxIterations
        (initRotation (p.seed.getD ambient) p.nComponents)).2.1
    iterationsUsed :=
      (fixedPointLoop (mkStep (centerRows signal)) p.tolerance p.maxIterations
        (initRotation (p.seed.getD ambient) p.nComponents)).2.2
    randomSeed := p.seed.getD ambient }

/-- The loop's convergence flag agrees with the spec's "tolerance met
before exhausting iterations" recursion. -/
theorem fixedPointLoop_converged_eq (step : Matrix' → Matrix') (tol : ℚ) :
    ∀ (n : ℕ) (w : Matrix'),
      (fixedPointLoop step tol n w).2.1 = toleranceMetWithin step tol n w := by
  intro n
  induction n with
  | zero => intro w; rfl
  | succ k ih =>
    intro w
    by_cases h : matChange (step w) w ≤ tol
    · simp [fixedPointLoop, toleranceMetWithin, h]
    · simp [fixedPointLoop, toleranceMetWithin, h, ih]

/-! ## C5: determinism of the fit under an explicit seed -/

/-- C5: when the fit is given an explicit seed (as the script does with
`random_state = 97`), its output is independent of the ambient global
generator state: two runs with identical signal and parameters produce
identical models — in particular identical mixing and unmixing matrices —
whatever ambient randomness each run sees. -/
theorem fit_deterministic_under_seed
    (mkStep : Matrix' → Matrix' → Matrix') (signal : Matrix')
    (p : FitParams) (s ambientA ambientB : ℕ)
    (h : p.seed = some s) :
    fit mkStep signal p ambientA = fit mkStep signal p ambientB := by
  simp [fit, h]

/-- Witness for C5: a concrete fit with the script's seed 97 and two
different ambient states. -/
theorem fit_deterministic_under_seed_witness :
    (FitParams.mk N_ICA scriptRandomState 3 (1 / 1000)).seed = some 97 ∧
    fit (fun _ w => w) [[1, 2], [3, 4]]
        (FitParams.mk N_ICA scriptRandomState 3 (1 / 1000)) 5 =
      fit (fun _ w => w) [[1, 2], [3, 4]]
        (FitParams.mk N_ICA scriptRandomState 3 (1 / 1000)) 99 :=
  ⟨rfl,
   fit_deterministic_under_seed (fun _ w => w) [[1, 2], [3, 4]]
     (FitParams.mk N_ICA scriptRandomState 3 (1 / 1000)) 97 5 99 rfl⟩

/-! ## C9: non-convergence is reported, not fatal -/

/-- C9: the fit always returns a (best-effort) model — non-convergence is
not a fatal error and raises nothing — and the model's `converged` flag is
`true` exactly when the tolerance was met before exhausting
`max_iterations`, `false` when the budget ran out first. -/
theorem fit_nonconvergence_reported_not_fatal
    (mkStep : Matrix' → Matrix' → Matrix') (signal : Matrix')
    (p : FitParams) (ambient : ℕ) :
    ∃ m : DecompositionModel, fit mkStep signal p ambient = m ∧
      m.converged =
        toleranceMetWithin (mkStep (centerRows signal)) p.tolerance
          p.maxIterations (initRotation (p.seed.getD ambient) p.nComponents) :=
  ⟨fit mkStep signal p ambient, rfl,
   fixedPointLoop_converged_eq (mkStep (centerRows signal)) p.tolerance
     p.maxIterations (initRotation (p.seed.getD ambient) p.nComponents)⟩

/-! ## The visualization loop as a state machine
(script lines 78-104) -/

/-- One export action emitted by the loop body: a temporal-trace plot
(`plt.plot`, line 85) or a spatial topography (`mne.viz.plot_topomap`,
line 95), each carrying the sliced data it renders. -/
inductive PlotAction where
  | temporalTrace (ic : ℕ) (data : List ℚ)
  | topomap (ic : ℕ) (data : List ℚ)
deriving DecidableEq, Repr

/-- The script's state across the visualization loop: the decomposition
outputs `sources` and `mixing` (lines 69-70) and the stream of plots
emitted so far. -/
structure VizState where
  sources : Matrix'
  mixing : Matrix'
  plots : List PlotAction
deriving DecidableEq, Repr

/-- One iteration of the loop body (lines 78-104): slice
`temporal = sources[ic]` and `spatial = mixing[:, ic]`, then emit the two
plots.  The body reads the matrices and writes only to the plot stream. -/
def vizStep (st : VizState) (ic : ℕ) : VizState :=
  { st with plots := st.plots ++
      [PlotAction.temporalTrace ic (st.sources.row ic),
       PlotAction.topomap ic (st.mixing.col ic)] }

/-- The whole loop `for ic in range(n)` threaded over the state. -/
def vizLoop (n : ℕ) (st : VizState) : VizState :=
  (List.range n).foldl vizStep st

/-- Folding the loop body over any index list leaves the `sources` and
`mixing` fields untouched. -/
theorem vizFold_preserves_matrices (l : List ℕ) :
    ∀ st : VizState,
      (l.foldl vizStep st).sources = st.sources ∧
      (l.foldl vizStep st).mixing = st.mixing := by
  induction l with
  | nil => intro st; exact ⟨rfl, rfl⟩
  | cons i t ih =>
    intro st
    have h := ih (vizStep st i)
    simpa [List.foldl_cons, vizStep] using h

/-! ## C10: the loop does not modify the decomposition outputs -/

/-- C10: after iterating the visualization loop over all components, the
`sources` and `mixing` matrices are unchanged from their values right
after the fit — every per-component access is a non-mutating slice. -/
theorem vizLoop_frame_sources_mixing (n : ℕ) (st : VizState) :
    (vizLoop n st).sources = st.sources ∧ (vizLoop n st).mixing = st.mixing :=
  vizFold_preserves_matrices (List.range n) st

/-! ## C8: extraction twice yields identical feature sequences -/

/-- C8: extraction is deterministic and idempotent as the program runs it:
extracting from the matrices after a full pass of the loop yields exactly
the feature sequence extracted before it — running the extraction step
twice on the same `(model, sources)` pair gives two identical sequences. -/
theorem extract_twice_identical (n : ℕ) (st : VizState) :
    extractFeatures n (vizLoop n st).sources (vizLoop n st).mixing =
      extractFeatures n st.sources st.mixing := by
  obtain ⟨hs, hm⟩ := vizFold_preserves_matrices (List.range n) st
  rw [vizLoop] at *
  rw [hs, hm]
